import Mathlib

/-!
Verification of the ReAct RAG agent core (`server/rag-agent.ts`,
class `ReactRagAgent`).

The agent's strings are modelled at the character-list level (`JSString :=
List Char`), with the JavaScript string operations the code uses translated
one-for-one: `toLowerCase` (the inputs of interest are ASCII, where
`Char.toLower` agrees with JavaScript), `includes`, `substring(0, n)`
(`List.take n`), `split` on a regex character class (`splitRuns`), `split`
on the one-character string " " (`splitOnSpace`), `trim`, `Array.join`
(`joinSep`), and `slice(0, 3)` (`List.take 3`).

The document map (`Map<string, string>`) is modelled as an association list
in insertion order, which is exactly the iteration order of a JavaScript
`Map`.
-/

/-- Strings of the embedded program, as lists of characters. -/
abbrev JSString := List Char

/-- Conversion from Lean string literals into the embedding. -/
def str (s : String) : JSString := s.data

/-- JavaScript `String.prototype.toLowerCase`, on the ASCII fragment. -/
def toLowerCL (s : JSString) : JSString := s.map Char.toLower

/-- Whether `needle` occurs at the start of `hay` (helper for `includesCL`). -/
def beginsWith : JSString → JSString → Bool
  | [], _ => true
  | _ :: _, [] => false
  | n :: ns, h :: hs => (n = h) && beginsWith ns hs

/-- JavaScript `hay.includes(needle)`: contiguous substring test. -/
def includesCL : JSString → JSString → Bool
  | [], needle => beginsWith needle []
  | h :: t, needle => beginsWith needle (h :: t) || includesCL t needle

/-- JavaScript `Array.prototype.join(sep)`. -/
def joinSep (sep : JSString) : List JSString → JSString
  | [] => []
  | [x] => x
  | x :: y :: rest => x ++ sep ++ joinSep sep (y :: rest)

/-- JavaScript `text.split(re)` for a regex character class `[...]+`:
split at maximal runs of characters satisfying `p`.  The accumulator `acc`
holds the current fragment reversed; `inRun` records whether the previous
character was a separator (so a run contributes a single split point). -/
def splitRunsGo (p : Char → Bool) : JSString → JSString → Bool → List JSString
  | [], acc, _ => [acc.reverse]
  | c :: cs, acc, inRun =>
    if p c then
      if inRun then splitRunsGo p cs [] true
      else acc.reverse :: splitRunsGo p cs [] true
    else splitRunsGo p cs (c :: acc) false

/-- JavaScript `text.split(/[...]+/)` where `p` recognises the class. -/
def splitRuns (p : Char → Bool) (s : JSString) : List JSString :=
  splitRunsGo p s [] false

/-- JavaScript `query.split(" ")`: split at every single space, keeping
empty fragments produced by leading, trailing or consecutive spaces. -/
def splitOnSpace : JSString → List JSString
  | [] => [[]]
  | c :: cs =>
    if c = ' ' then [] :: splitOnSpace cs
    else
      match splitOnSpace cs with
      | [] => [[c]]
      | p :: ps => (c :: p) :: ps

/-- JavaScript `String.prototype.trim` (whitespace at both ends). -/
def trimCL (s : JSString) : JSString :=
  ((s.dropWhile Char.isWhitespace).reverse.dropWhile Char.isWhitespace).reverse

/-- The sentence separators of `analyzeText`: the regex class `[.!?]`. -/
def isSentencePunct (c : Char) : Bool := c = '.' || c = '!' || c = '?'

/-- Embedding of `ReactRagAgent.retrieveDocuments` (rag-agent.ts, lines 190-207):
lower-case the query, push an excerpt `"[title]\n" + content.substring(0,
500) + "..."` for every document whose lower-cased title or content
includes the lower-cased query, and join the excerpts with
`"\n\n---\n\n"`; if none matched, return the sentinel. -/
def retrieveDocuments (documents : List (JSString × JSString)) (query : JSString) : JSString :=
  let queryLower := toLowerCL query
  let results := documents.foldl (fun acc d =>
    if includesCL (toLowerCL d.1) queryLower || includesCL (toLowerCL d.2) queryLower then
      acc ++ [str "[" ++ d.1 ++ str "]\n" ++ d.2.take 500 ++ str "..."]
    else acc) []
  if results.length > 0 then joinSep (str "\n\n---\n\n") results
  else str "No relevant documents found."

/-- Embedding of `ReactRagAgent.analyzeText` (rag-agent.ts, lines 209-220): split the
text on `/[.!?]+/`, drop fragments that are empty after trimming, split
the query on single spaces, keep the sentences such that some query
fragment occurs (case-insensitively) inside them, and return the first
three joined by newlines under the header, or the sentinel. -/
def analyzeText (text query : JSString) : JSString :=
  let sentences := (splitRuns isSentencePunct text).filter (fun s => !(trimCL s).isEmpty)
  let queryWords := splitOnSpace query
  let relevant := sentences.filter (fun s =>
    queryWords.any (fun word => includesCL (toLowerCL s) (toLowerCL word)))
  if relevant.length > 0 then
    str "Key findings:\n" ++ joinSep (str "\n") (relevant.take 3)
  else str "No specific findings related to the query."

/-- The step labels of the agent trace (`AgentStep["type"]`). -/
inductive StepType where
  | thought
  | action
  | observation
  | result
deriving DecidableEq, Repr

/-- One entry of the Step Log (`AgentStep` in rag-agent.ts). -/
structure AgentStep where
  type : StepType
  content : JSString
  timestamp : Nat
deriving DecidableEq, Repr

/-- A message of the conversation sent to the model (`SystemMessage` /
`HumanMessage` from LangChain, carrying only the content). -/
inductive Message where
  | system : JSString → Message
  | human : JSString → Message
deriving DecidableEq, Repr

/-- The agent's environment.  `oracle` models `this.model.invoke`: given
the current message list it either returns the reply content (`Except.ok`)
or throws (`Except.error`, carrying the error message).  Quantifying over
all oracles covers every possible sequence of model replies and failures.
`extractSearchQuery content query` models the best-effort regex match
`content.match(/(?:retrieve|search|find).../)` with fallback to the
original query; the claims below hold for every extraction function, which
soundly covers the concrete regex.  `clock` models `Date.now()`, sampled
at each step append (indexed by the step's position). -/
structure AgentConfig where
  oracle : List Message → Except JSString JSString
  extractSearchQuery : JSString → JSString → JSString
  clock : Nat → Nat

/-- Embedding of `ReactRagAgent.addStep`: push a step with the current time. -/
def addStep (clock : Nat → Nat) (steps : List AgentStep) (t : StepType)
    (c : JSString) : List AgentStep :=
  steps ++ [⟨t, c, clock steps.length⟩]

/-- Embedding of `ReactRagAgent.maxIterations` (rag-agent.ts, line 163). -/
def maxIterations : Nat := 5

/-- The fixed system prompt seeded into the message list. -/
def systemPromptText : JSString :=
  str "You are a helpful ReAct agent that reasons step-by-step and uses tools to retrieve and analyze documents.\n\nAvailable tools:\n- retrieve_documents: Search for relevant documents based on keywords\n- analyze_text: Extract key information from retrieved documents\n\nFollow this pattern:\n1. Thought: Analyze what you need to do\n2. Action: Decide to retrieve documents or analyze text\n3. Observation: Process the results\n4. Repeat until you have enough information\n5. Final Answer: Provide a comprehensive response\n\nBe concise and clear in your reasoning. After gathering information, provide a final answer."

/-- Embedding of `content.toLowerCase().includes(lit)` for a literal `lit` (already
lower-case in the source). -/
def lcIncludes (content lit : JSString) : Bool :=
  includesCL (toLowerCL content) lit

/-- Outcome of the `while` loop of `processQuery`: the `finalAnswer`
variable at exit, the Step Log, plus two ghost observables that the code
does not store but that the execution determines: `calls`, the number of
`model.invoke` calls made, and `errored`, whether the loop exited through
the `catch` branch. -/
structure RunOutcome where
  finalAnswer : JSString
  steps : List AgentStep
  calls : Nat
  errored : Bool
deriving Repr

/-- The `while (iterations < this.maxIterations)` loop of
`ReactRagAgent.processQuery` (rag-agent.ts, lines 258-332).  `fuel` is the
number of loop-condition checks remaining (`maxIter - iter`), `iter` the
number of completed iterations; callers maintain `iter + fuel = maxIter`.
Each iteration: invoke the model (a throw is the `Except.error` case,
mirroring the `catch`: one error thought step, break with no answer);
append the reply as a thought step; if the reply mentions "final answer"
or "answer:" or the bound is reached, record the result step and break;
otherwise dispatch on "retrieve"/"search" then "analyze"/"extract",
appending action and observation steps and pushing the synthetic follow-up
messages; with no keyword, treat the reply as the final answer. -/
def runLoop (cfg : AgentConfig) (docs : List (JSString × JSString))
    (query : JSString) (maxIter : Nat) :
    Nat → Nat → List Message → List AgentStep → RunOutcome
  | 0, _, _, steps => ⟨[], steps, 0, false⟩
  | fuel + 1, iter, msgs, steps =>
    let iterations := iter + 1
    match cfg.oracle msgs with
    | .error e =>
      ⟨[], addStep cfg.clock steps .thought (str "Error during processing: " ++ e), 1, true⟩
    | .ok content =>
      let steps1 := addStep cfg.clock steps .thought content
      if lcIncludes content (str "final answer") || lcIncludes content (str "answer:")
          || decide (maxIter ≤ iterations) then
        ⟨content, addStep cfg.clock steps1 .result content, 1, false⟩
      else if lcIncludes content (str "retrieve") || lcIncludes content (str "search") then
        let searchQuery := cfg.extractSearchQuery content query
        let steps2 := addStep cfg.clock steps1 .action
          (str "Retrieving documents for: \"" ++ searchQuery ++ str "\"")
        let r := retrieveDocuments docs searchQuery
        let steps3 := addStep cfg.clock steps2 .observation r
        let msgs2 := msgs ++ [Message.human content,
          Message.human (str "Tool result from document retrieval:\n" ++ r
            ++ str "\n\nContinue your analysis.")]
        let rest := runLoop cfg docs query maxIter fuel iterations msgs2 steps3
        ⟨rest.finalAnswer, rest.steps, rest.calls + 1, rest.errored⟩
      else if lcIncludes content (str "analyze") || lcIncludes content (str "extract") then
        let steps2 := addStep cfg.clock steps1 .action (str "Analyzing retrieved documents")
        let r := analyzeText content query
        let steps3 := addStep cfg.clock steps2 .observation r
        let msgs2 := msgs ++ [Message.human content,
          Message.human (str "Tool result from analysis:\n" ++ r
            ++ str "\n\nProvide your final answer based on this analysis.")]
        let rest := runLoop cfg docs query maxIter fuel iterations msgs2 steps3
        ⟨rest.finalAnswer, rest.steps, rest.calls + 1, rest.errored⟩
      else
        ⟨content, addStep cfg.clock steps1 .result content, 1, false⟩

/-- The value returned by `processQuery`: `result` is
`finalAnswer || fallback`, `steps` the Step Log; `calls` and `errored` are
the ghost observables of the run. -/
structure QueryResult where
  result : JSString
  steps : List AgentStep
  calls : Nat
  errored : Bool
deriving Repr

/-- The initial message list of a run: the fixed system prompt followed by
the user query. -/
def initialMessages (query : JSString) : List Message :=
  [Message.system systemPromptText, Message.human query]

/-- Embedding of `ReactRagAgent.processQuery` (rag-agent.ts, lines 222-342): reset the
state, append the initial "Analyzing query" thought, run the loop with the
seeded messages, and return `finalAnswer || "Unable to generate a complete
answer. Please try again."` together with the Step Log. -/
def processQuery (cfg : AgentConfig) (docs : List (JSString × JSString))
    (query : JSString) : QueryResult :=
  let steps0 := addStep cfg.clock [] .thought
    (str "Analyzing query: \"" ++ query ++ str "\"")
  let o := runLoop cfg docs query maxIterations maxIterations 0
    (initialMessages query) steps0
  ⟨if o.finalAnswer.isEmpty then
      str "Unable to generate a complete answer. Please try again."
    else o.finalAnswer,
   o.steps, o.calls, o.errored⟩

example : splitOnSpace (str "a  b") = [str "a", str "", str "b"] := by decide

example : includesCL (str "python is great") (str "is gr") = true := by decide

example : includesCL (str "python") (str "tell me") = false := by decide

example : splitRuns isSentencePunct (str "A.. b!") = [str "A", str " b", str ""] := by decide

example :
    analyzeText (str "Python is fast. Python is readable. Cats are cute.")
      (str "Python readable") =
    str "Key findings:\nPython is fast\n Python is readable" := by decide

example :
    retrieveDocuments [(str "doc1", str "Python is great for readability and libraries.")]
      (str "Tell me about Python") = str "No relevant documents found." := by decide

example :
    retrieveDocuments [(str "doc1", str "Python is great for readability and libraries.")]
      (str "Python") =
    str "[doc1]\nPython is great for readability and libraries...." := by decide

example :
    (processQuery ⟨fun _ => .ok (str "Let us retrieve data"), fun _ q => q, fun _ => 0⟩
      [] (str "q")).steps.length = 15 := by decide

example :
    (processQuery ⟨fun _ => .error (str "boom"), fun _ q => q, fun _ => 0⟩
      [] (str "q")).errored = true := by decide

example :
    (processQuery ⟨fun _ => .ok [], fun _ q => q, fun _ => 0⟩ [] (str "q")).result
      = str "Unable to generate a complete answer. Please try again." := by decide

example :
    (processQuery ⟨fun _ => .ok (str "hello"), fun _ q => q, fun _ => 0⟩
      [] (str "q")).result = str "hello" := by decide

/-! ## Specification-side vocabulary for the Retrieval Tool -/

/-- A document matches a search phrase when its title or its content
contains the phrase case-insensitively. -/
def docMatches (query : JSString) (d : JSString × JSString) : Prop :=
  includesCL (toLowerCL d.1) (toLowerCL query) = true ∨
  includesCL (toLowerCL d.2) (toLowerCL query) = true

instance (query : JSString) (d : JSString × JSString) :
    Decidable (docMatches query d) := by
  unfold docMatches
  exact inferInstance

/-- The excerpt the Retrieval Tool produces for a matching document: its
bracketed title and the first 500 characters of its content. -/
def excerptOf (d : JSString × JSString) : JSString :=
  str "[" ++ d.1 ++ str "]\n" ++ d.2.take 500 ++ str "..."

/-- The delimiter between excerpts. -/
def excerptDelim : JSString := str "\n\n---\n\n"

/-- The "no relevant documents found" sentinel. -/
def noDocsSentinel : JSString := str "No relevant documents found."

/-! ## Helper lemmas -/

theorem retrieve_foldl_eq (q : JSString) :
    ∀ (l : List (JSString × JSString)) (acc : List JSString),
      l.foldl (fun acc d =>
        if includesCL (toLowerCL d.1) (toLowerCL q)
            || includesCL (toLowerCL d.2) (toLowerCL q) then
          acc ++ [str "[" ++ d.1 ++ str "]\n" ++ d.2.take 500 ++ str "..."]
        else acc) acc
      = acc ++ (l.filter (fun d =>
          includesCL (toLowerCL d.1) (toLowerCL q)
            || includesCL (toLowerCL d.2) (toLowerCL q))).map excerptOf
  | [], acc => by simp
  | d :: l, acc => by
    simp only [List.foldl_cons, List.filter_cons]
    by_cases h : (includesCL (toLowerCL d.1) (toLowerCL q)
        || includesCL (toLowerCL d.2) (toLowerCL q)) = true
    · rw [if_pos h, if_pos h, retrieve_foldl_eq q l]
      simp [excerptOf]
    · rw [if_neg h, if_neg h, retrieve_foldl_eq q l]

theorem includesCL_nil (hay : JSString) : includesCL hay [] = true := by
  cases hay <;> simp [includesCL, beginsWith]

theorem decide_docMatches (q : JSString) (d : JSString × JSString) :
    decide (docMatches q d)
      = (includesCL (toLowerCL d.1) (toLowerCL q)
          || includesCL (toLowerCL d.2) (toLowerCL q)) := by
  unfold docMatches
  by_cases h1 : includesCL (toLowerCL d.1) (toLowerCL q) = true <;>
    by_cases h2 : includesCL (toLowerCL d.2) (toLowerCL q) = true <;>
      simp_all

/-- The Retrieval Tool, characterised through the spec-side vocabulary:
filter the matching documents, map them to excerpts, join, with the
sentinel for an empty match set. -/
theorem retrieveDocuments_eq (docs : List (JSString × JSString)) (q : JSString) :
    retrieveDocuments docs q =
      (if docs.filter (fun d => decide (docMatches q d)) = [] then noDocsSentinel
       else joinSep excerptDelim
         ((docs.filter (fun d => decide (docMatches q d))).map excerptOf)) := by
  have hfc : docs.filter (fun d => decide (docMatches q d))
      = docs.filter (fun d =>
          includesCL (toLowerCL d.1) (toLowerCL q)
            || includesCL (toLowerCL d.2) (toLowerCL q)) := by
    exact List.filter_congr (fun d _ => decide_docMatches q d)
  simp only [retrieveDocuments, hfc]
  rw [retrieve_foldl_eq q docs []]
  simp only [List.nil_append]
  cases hX : docs.filter (fun d =>
      includesCL (toLowerCL d.1) (toLowerCL q)
        || includesCL (toLowerCL d.2) (toLowerCL q)) with
  | nil => simp [noDocsSentinel]
  | cons x xs => simp [excerptDelim, excerptOf]

theorem joinSep_cons_head (sep : JSString) (c : Char) (t : JSString)
    (rest : List JSString) :
    ∃ u, joinSep sep ((c :: t) :: rest) = c :: u := by
  cases rest with
  | nil => exact ⟨t, rfl⟩
  | cons y r => exact ⟨t ++ sep ++ joinSep sep (y :: r), rfl⟩

theorem excerptOf_head (d : JSString × JSString) :
    excerptOf d = '[' :: (d.1 ++ str "]\n" ++ d.2.take 500 ++ str "...") := rfl

theorem joinSep_excerpts_ne_sentinel (d : JSString × JSString)
    (rest : List JSString) :
    joinSep excerptDelim (excerptOf d :: rest) ≠ noDocsSentinel := by
  rw [excerptOf_head]
  obtain ⟨u, hu⟩ := joinSep_cons_head excerptDelim '['
    (d.1 ++ str "]\n" ++ d.2.take 500 ++ str "...") rest
  rw [hu]
  intro h
  rw [show noDocsSentinel = 'N' :: str "o relevant documents found." from rfl] at h
  injection h with h1 _
  exact absurd h1 (by decide)

/-- C1: for every search phrase and document map, `retrieveDocuments`
returns the excerpts of exactly the documents whose title or content
contains the phrase case-insensitively, one per matching document, in the
map's iteration order, joined by the fixed `"\n\n---\n\n"` delimiter,
each excerpt being the bracketed title and the first 500 characters of the
content; when no document matches it returns the "No relevant documents
found." sentinel. -/
theorem retrieval_contract (docs : List (JSString × JSString)) (q : JSString) :
    retrieveDocuments docs q =
      (if docs.filter (fun d => decide (docMatches q d)) = [] then noDocsSentinel
       else joinSep excerptDelim
         ((docs.filter (fun d => decide (docMatches q d))).map excerptOf)) :=
  retrieveDocuments_eq docs q

/-- C6, counterexample: with the single document `doc1`, the query
"Tell me about Python" is matched as a whole phrase, which is not a
substring of the title or content, so `retrieveDocuments` returns the
sentinel rather than a string containing "[doc1]". -/
theorem retrieval_example_counterexample :
    retrieveDocuments
        [(str "doc1", str "Python is great for readability and libraries.")]
        (str "Tell me about Python") = noDocsSentinel ∧
    includesCL (retrieveDocuments
        [(str "doc1", str "Python is great for readability and libraries.")]
        (str "Tell me about Python")) (str "[doc1]") = false := by
  constructor <;> decide

/-- C6, amended: with the single document `doc1`, a query that actually
occurs in the document ("Python") makes `retrieveDocuments` return a
string containing "[doc1]" and the document's content (shorter than 500
characters, so unchanged by the truncation). -/
theorem retrieval_example_amended :
    includesCL (retrieveDocuments
        [(str "doc1", str "Python is great for readability and libraries.")]
        (str "Python")) (str "[doc1]") = true ∧
    includesCL (retrieveDocuments
        [(str "doc1", str "Python is great for readability and libraries.")]
        (str "Python")) (str "Python is great for readability and libraries.") = true ∧
    retrieveDocuments
        [(str "doc1", str "Python is great for readability and libraries.")]
        (str "Python")
      = str "[doc1]\nPython is great for readability and libraries...." := by
  refine ⟨?_, ?_, ?_⟩ <;> decide

/-- C8: the Analysis Tool on "Python is fast. Python is readable. Cats
are cute." with query "Python readable" returns the "Key findings:" block
with exactly the first two sentences, excluding the third. -/
theorem analysis_example :
    analyzeText (str "Python is fast. Python is readable. Cats are cute.")
        (str "Python readable")
      = str "Key findings:\nPython is fast\n Python is readable" ∧
    includesCL (analyzeText (str "Python is fast. Python is readable. Cats are cute.")
        (str "Python readable")) (str "Python is fast") = true ∧
    includesCL (analyzeText (str "Python is fast. Python is readable. Cats are cute.")
        (str "Python readable")) (str "Python is readable") = true ∧
    includesCL (analyzeText (str "Python is fast. Python is readable. Cats are cute.")
        (str "Python readable")) (str "Cats are cute") = false := by
  refine ⟨?_, ?_, ?_, ?_⟩ <;> decide

/-- C9: the Retrieval Tool and the Analysis Tool are deterministic — two
invocations on equal inputs produce equal outputs (both are pure functions
of their arguments; no hidden randomness). -/
theorem tools_deterministic :
    (∀ (docs docs' : List (JSString × JSString)) (q q' : JSString),
        docs = docs' → q = q' →
        retrieveDocuments docs q = retrieveDocuments docs' q') ∧
    (∀ (t t' q q' : JSString), t = t' → q = q' →
        analyzeText t q = analyzeText t' q') :=
  ⟨fun _ _ _ _ hd hq => by rw [hd, hq], fun _ _ _ _ ht hq => by rw [ht, hq]⟩

/-- Witness for C9 at concrete inputs. -/
theorem tools_deterministic_witness :
    retrieveDocuments [] (str "a") = retrieveDocuments [] (str "a") ∧
    analyzeText (str "b") (str "c") = analyzeText (str "b") (str "c") :=
  ⟨tools_deterministic.1 [] [] (str "a") (str "a") rfl rfl,
   tools_deterministic.2 (str "b") (str "b") (str "c") (str "c") rfl rfl⟩

/-- C10: the empty search phrase matches every document (the match test
is a whole-phrase substring check and the empty string is a substring of
everything), so on a nonempty document map `retrieveDocuments` returns the
joined excerpts of every document and never the sentinel. -/
theorem empty_phrase_matches_all (docs : List (JSString × JSString))
    (h : docs ≠ []) :
    retrieveDocuments docs [] = joinSep excerptDelim (docs.map excerptOf) ∧
    retrieveDocuments docs [] ≠ noDocsSentinel := by
  have hfilter : docs.filter (fun d => decide (docMatches [] d)) = docs := by
    refine List.filter_eq_self.mpr (fun d _ => ?_)
    refine decide_eq_true ?_
    refine Or.inl ?_
    rw [show toLowerCL [] = ([] : JSString) from rfl]
    exact includesCL_nil _
  rw [retrieveDocuments_eq, hfilter]
  cases docs with
  | nil => exact absurd rfl h
  | cons d ds =>
    rw [if_neg (by simp)]
    refine ⟨rfl, ?_⟩
    rw [List.map_cons]
    exact joinSep_excerpts_ne_sentinel d (ds.map excerptOf)

/-- Witness for C10 at a concrete one-document map. -/
theorem empty_phrase_matches_all_witness :
    ([(str "d", str "c")] : List (JSString × JSString)) ≠ [] ∧
    retrieveDocuments [(str "d", str "c")] [] ≠ noDocsSentinel :=
  ⟨by decide, (empty_phrase_matches_all [(str "d", str "c")] (by decide)).2⟩

/-! ## Specification-side vocabulary for the Analysis Tool -/

/-- The "no findings" sentinel of the Analysis Tool. -/
def noFindingsSentinel : JSString := str "No specific findings related to the query."

/-- The pseudo-sentences of a text: fragments between runs of `.`/`!`/`?`
that contain at least one non-whitespace character. -/
def specSentences (text : JSString) : List JSString :=
  (splitRuns isSentencePunct text).filter
    (fun s => decide (∃ c ∈ s, c.isWhitespace = false))

/-- A sentence is relevant to the query when some fragment of splitting
the query on the space character occurs in it case-insensitively. -/
def sentenceRelevant (query s : JSString) : Prop :=
  ∃ w ∈ splitOnSpace query, includesCL (toLowerCL s) (toLowerCL w) = true

instance (query s : JSString) : Decidable (sentenceRelevant query s) := by
  unfold sentenceRelevant
  exact inferInstance

/-- The Analysis Tool as the amended claim describes it. -/
def analyzeTextSpec (text query : JSString) : JSString :=
  let kept := (specSentences text).filter (fun s => decide (sentenceRelevant query s))
  if kept = [] then noFindingsSentinel
  else str "Key findings:\n" ++ joinSep (str "\n") (kept.take 3)

/-- The whitespace-delimited tokens of the query, as claim C2 words it:
maximal nonempty runs of non-whitespace characters. -/
def wsTokens (query : JSString) : List JSString :=
  (splitRuns (fun c => c.isWhitespace) query).filter (fun s => !s.isEmpty)

/-- The Analysis Tool as claim C2 states it: keep the pseudo-sentences
that case-insensitively contain some whitespace-delimited token of the
query. -/
def analyzeTextClaimed (text query : JSString) : JSString :=
  let kept := (splitRuns isSentencePunct text).filter (fun s =>
    (wsTokens query).any (fun w => includesCL (toLowerCL s) (toLowerCL w)))
  if kept = [] then noFindingsSentinel
  else str "Key findings:\n" ++ joinSep (str "\n") (kept.take 3)

theorem trimCL_eq_nil_iff (s : JSString) :
    trimCL s = [] ↔ ∀ c ∈ s, c.isWhitespace = true := by
  unfold trimCL
  rw [List.reverse_eq_nil_iff, List.dropWhile_eq_nil_iff]
  simp only [List.mem_reverse]
  constructor
  · intro h c hc
    have hc2 : c ∈ s.takeWhile Char.isWhitespace ++ s.dropWhile Char.isWhitespace := by
      rw [List.takeWhile_append_dropWhile]
      exact hc
    rcases List.mem_append.mp hc2 with h1 | h2
    · exact List.mem_takeWhile_imp h1
    · exact h c h2
  · intro h c hc
    exact h c ((List.dropWhile_sublist (p := Char.isWhitespace)).mem hc)

theorem sentence_kept_decide (s : JSString) :
    (!(trimCL s).isEmpty) = decide (∃ c ∈ s, c.isWhitespace = false) := by
  by_cases hp : ∃ c ∈ s, c.isWhitespace = false
  · rw [decide_eq_true hp]
    obtain ⟨c, hc, hcw⟩ := hp
    have hne : trimCL s ≠ [] := by
      intro h0
      have := (trimCL_eq_nil_iff s).mp h0 c hc
      rw [this] at hcw
      exact Bool.noConfusion hcw
    cases hE : (trimCL s).isEmpty
    · rfl
    · exact absurd (List.isEmpty_iff.mp hE) hne
  · rw [decide_eq_false hp]
    have hall : ∀ c ∈ s, c.isWhitespace = true := by
      intro c hc
      cases hw : c.isWhitespace
      · exact absurd ⟨c, hc, hw⟩ hp
      · rfl
    rw [(trimCL_eq_nil_iff s).mpr hall]
    rfl

theorem sentence_relevant_decide (query s : JSString) :
    ((splitOnSpace query).any (fun w => includesCL (toLowerCL s) (toLowerCL w)))
      = decide (sentenceRelevant query s) := by
  by_cases hp : sentenceRelevant query s
  · rw [decide_eq_true hp]
    obtain ⟨w, hw, hi⟩ := hp
    exact List.any_eq_true.mpr ⟨w, hw, hi⟩
  · rw [decide_eq_false hp]
    cases hA : (splitOnSpace query).any (fun w => includesCL (toLowerCL s) (toLowerCL w))
    · rfl
    · obtain ⟨w, hw, hi⟩ := List.any_eq_true.mp hA
      exact absurd ⟨w, hw, hi⟩ hp

/-- C2, counterexample: the query "is&#9;fast" (with a tab between the
words) has whitespace-delimited tokens "is" and "fast", and the claim
keeps the sentence "Python is fast"; the code splits the query on the
space character only, so its single token "is&#9;fast" occurs in no
sentence and `analyzeText` returns the sentinel. -/
theorem analysis_token_counterexample :
    analyzeText (str "Python is fast. Cats are cute.") (str "is\tfast")
        = noFindingsSentinel ∧
    analyzeTextClaimed (str "Python is fast. Cats are cute.") (str "is\tfast")
        = str "Key findings:\nPython is fast" := by
  constructor <;> decide

/-- C2, amended: `analyzeText` splits the text on runs of `.`/`!`/`?`,
discards whitespace-only fragments, keeps exactly the sentences that
case-insensitively contain some fragment of splitting the query on the
space character (such fragments may be empty — for an empty query or
consecutive spaces — and an empty fragment matches every sentence), and
returns the first three kept sentences joined by newlines under the
"Key findings:" header, or the "no findings" sentinel when none is
kept. -/
theorem analysis_contract_amended (text query : JSString) :
    analyzeText text query = analyzeTextSpec text query := by
  simp only [analyzeText, analyzeTextSpec]
  rw [List.filter_congr (fun s _ => sentence_kept_decide s)]
  rw [List.filter_congr (fun s _ => sentence_relevant_decide query s)]
  cases hk : (specSentences text).filter (fun s => decide (sentenceRelevant query s)) with
  | nil =>
    rw [show ((splitRuns isSentencePunct text).filter
        (fun s => decide (∃ c ∈ s, c.isWhitespace = false))) = specSentences text from rfl, hk]
    simp [noFindingsSentinel]
  | cons a l =>
    rw [show ((splitRuns isSentencePunct text).filter
        (fun s => decide (∃ c ∈ s, c.isWhitespace = false))) = specSentences text from rfl, hk]
    simp

/-! ## Agent-loop lemmas -/

theorem addStep_length (clock : Nat → Nat) (steps : List AgentStep)
    (t : StepType) (c : JSString) :
    (addStep clock steps t c).length = steps.length + 1 := by
  simp [addStep]

/-- Each loop-condition check consumes at most one model call, so a run
never invokes the model more than `fuel` times. -/
theorem runLoop_calls_le (cfg : AgentConfig) (docs : List (JSString × JSString))
    (query : JSString) (maxIter : Nat) :
    ∀ (fuel iter : Nat) (msgs : List Message) (steps : List AgentStep),
      (runLoop cfg docs query maxIter fuel iter msgs steps).calls ≤ fuel
  | 0, _, _, _ => Nat.le_refl 0
  | fuel + 1, iter, msgs, steps => by
    unfold runLoop
    cases cfg.oracle msgs with
    | error e => exact Nat.succ_le_succ (Nat.zero_le fuel)
    | ok content =>
      dsimp only
      split
      · exact Nat.succ_le_succ (Nat.zero_le fuel)
      · split
        · exact Nat.succ_le_succ (runLoop_calls_le cfg docs query maxIter fuel (iter + 1) _ _)
        · split
          · exact Nat.succ_le_succ (runLoop_calls_le cfg docs query maxIter fuel (iter + 1) _ _)
          · exact Nat.succ_le_succ (Nat.zero_le fuel)

/-- Step-count bound for the loop: a tool turn appends three entries and
recurses, every exit appends at most two, and the bound check prevents a
tool turn on the last iteration, so when `iter + fuel = maxIter` and at
least one iteration remains, at most `3 * fuel - 1` entries are added. -/
theorem runLoop_steps_le (cfg : AgentConfig) (docs : List (JSString × JSString))
    (query : JSString) (maxIter : Nat) :
    ∀ (fuel iter : Nat) (msgs : List Message) (steps : List AgentStep),
      iter + fuel = maxIter → 1 ≤ fuel →
      (runLoop cfg docs query maxIter fuel iter msgs steps).steps.length + 1
        ≤ steps.length + 3 * fuel
  | 0, _, _, _ => by omega
  | fuel + 1, iter, msgs, steps => by
    intro hinv _
    unfold runLoop
    cases cfg.oracle msgs with
    | error e =>
      simp only [addStep_length]
      omega
    | ok content =>
      dsimp only
      split
      · simp only [addStep_length]
        omega
      · rename_i hcond
        have hlt : iter + 1 < maxIter := by
          simp only [Bool.or_eq_true, decide_eq_true_eq, not_or] at hcond
          omega
        have hfuel : 1 ≤ fuel := by omega
        split
        · refine le_trans
            (runLoop_steps_le cfg docs query maxIter fuel (iter + 1) _ _ (by omega) hfuel) ?_
          simp only [addStep_length]
          omega
        · split
          · refine le_trans
              (runLoop_steps_le cfg docs query maxIter fuel (iter + 1) _ _ (by omega) hfuel) ?_
            simp only [addStep_length]
            omega
          · simp only [addStep_length]
            omega

/-- Either a run of the loop did not exit through the `catch` branch, or
its answer is empty and its last step is the error thought. -/
theorem runLoop_error_cases (cfg : AgentConfig) (docs : List (JSString × JSString))
    (query : JSString) (maxIter : Nat) :
    ∀ (fuel iter : Nat) (msgs : List Message) (steps : List AgentStep),
      (runLoop cfg docs query maxIter fuel iter msgs steps).errored = false ∨
      ((runLoop cfg docs query maxIter fuel iter msgs steps).finalAnswer = [] ∧
        ∃ e ts, (runLoop cfg docs query maxIter fuel iter msgs steps).steps.getLast?
          = some ⟨.thought, str "Error during processing: " ++ e, ts⟩)
  | 0, _, _, _ => Or.inl rfl
  | fuel + 1, iter, msgs, steps => by
    unfold runLoop
    cases cfg.oracle msgs with
    | error e =>
      refine Or.inr ⟨rfl, e, cfg.clock steps.length, ?_⟩
      simp [addStep]
    | ok content =>
      dsimp only
      split
      · exact Or.inl rfl
      · split
        · exact runLoop_error_cases cfg docs query maxIter fuel (iter + 1) _ _
        · split
          · exact runLoop_error_cases cfg docs query maxIter fuel (iter + 1) _ _
          · exact Or.inl rfl

/-- C3, counterexample: a run whose model always replies with a retrieval
request produces 15 step entries — the initial thought, four tool turns
of three entries each, and a forced final thought/result pair — which
exceeds the claimed bound 2 * maxIterations + 1 = 11. -/
theorem step_log_bound_counterexample :
    ¬ ((processQuery ⟨fun _ => .ok (str "Let us retrieve data"), fun _ q => q, fun _ => 0⟩
        [] (str "q")).steps.length ≤ 2 * maxIterations + 1) := by decide

/-- C3, amended: for every run, whatever the model replies, the Step Log
holds at most 3 * maxIterations (= 15) entries: one initial thought, at
most maxIterations - 1 tool turns of three entries, and a final
thought/result pair. -/
theorem step_log_le_three_maxIterations (cfg : AgentConfig)
    (docs : List (JSString × JSString)) (query : JSString) :
    (processQuery cfg docs query).steps.length ≤ 3 * maxIterations := by
  have h := runLoop_steps_le cfg docs query maxIterations maxIterations 0
    (initialMessages query)
    (addStep cfg.clock [] .thought (str "Analyzing query: \"" ++ query ++ str "\""))
    (by omega) (by simp [maxIterations])
  simp only [addStep_length, List.length_nil] at h
  simp only [processQuery]
  omega

/-- C4: every run of `processQuery` terminates — it is a total function
of the oracle, documents and query — and the model is invoked at most
maxIterations = 5 times, regardless of the replies received. -/
theorem processQuery_calls_le (cfg : AgentConfig)
    (docs : List (JSString × JSString)) (query : JSString) :
    (processQuery cfg docs query).calls ≤ maxIterations ∧ maxIterations = 5 := by
  refine ⟨?_, rfl⟩
  have h := runLoop_calls_le cfg docs query maxIterations maxIterations 0
    (initialMessages query)
    (addStep cfg.clock [] .thought (str "Analyzing query: \"" ++ query ++ str "\""))
  simp only [processQuery]
  exact h

/-- C5: when a model call throws, the loop catches the error, records it
as a thought step — the final entry of the Step Log, so the loop stopped
immediately — and the caller receives the fixed fallback answer, never a
model-produced answer from the failed turn. -/
theorem model_error_aborts (cfg : AgentConfig) (docs : List (JSString × JSString))
    (query : JSString) (h : (processQuery cfg docs query).errored = true) :
    (processQuery cfg docs query).result
        = str "Unable to generate a complete answer. Please try again." ∧
    ∃ e ts, (processQuery cfg docs query).steps.getLast?
        = some ⟨.thought, str "Error during processing: " ++ e, ts⟩ := by
  rcases runLoop_error_cases cfg docs query maxIterations maxIterations 0
      (initialMessages query)
      (addStep cfg.clock [] .thought (str "Analyzing query: \"" ++ query ++ str "\""))
    with hok | ⟨hfa, e, ts, hlast⟩
  · exfalso
    simp only [processQuery] at h
    rw [h] at hok
    exact Bool.noConfusion hok
  · constructor
    · simp only [processQuery, hfa]
      rfl
    · exact ⟨e, ts, by simp only [processQuery]; exact hlast⟩

/-- Witness for C5: the first model call throws "boom". -/
theorem model_error_aborts_witness :
    (processQuery ⟨fun _ => .error (str "boom"), fun _ q => q, fun _ => 0⟩
        [] (str "q")).errored = true ∧
    ((processQuery ⟨fun _ => .error (str "boom"), fun _ q => q, fun _ => 0⟩
        [] (str "q")).result
        = str "Unable to generate a complete answer. Please try again." ∧
      ∃ e ts, (processQuery ⟨fun _ => .error (str "boom"), fun _ q => q, fun _ => 0⟩
        [] (str "q")).steps.getLast?
          = some ⟨.thought, str "Error during processing: " ++ e, ts⟩) :=
  ⟨by decide, model_error_aborts _ _ _ (by decide)⟩

/-- The keyword and marker literals `processQuery` sniffs for. -/
def keywordLiterals : List JSString :=
  [str "final answer", str "answer:", str "retrieve", str "search",
   str "analyze", str "extract"]

/-- A loop turn whose reply carries no keyword and no marker, before the
iteration bound, exits with the reply as final answer after appending the
thought and result steps. -/
theorem runLoop_no_keyword (cfg : AgentConfig) (docs : List (JSString × JSString))
    (query : JSString) (maxIter fuel iter : Nat) (msgs : List Message)
    (steps : List AgentStep) (r : JSString)
    (hr : cfg.oracle msgs = .ok r)
    (hkw : ∀ lit ∈ keywordLiterals, lcIncludes r lit = false)
    (hbound : ¬ maxIter ≤ iter + 1) :
    runLoop cfg docs query maxIter (fuel + 1) iter msgs steps
      = ⟨r, addStep cfg.clock (addStep cfg.clock steps .thought r) .result r,
          1, false⟩ := by
  have h1 : lcIncludes r (str "final answer") = false := hkw _ (by simp [keywordLiterals])
  have h2 : lcIncludes r (str "answer:") = false := hkw _ (by simp [keywordLiterals])
  have h3 : lcIncludes r (str "retrieve") = false := hkw _ (by simp [keywordLiterals])
  have h4 : lcIncludes r (str "search") = false := hkw _ (by simp [keywordLiterals])
  have h5 : lcIncludes r (str "analyze") = false := hkw _ (by simp [keywordLiterals])
  have h6 : lcIncludes r (str "extract") = false := hkw _ (by simp [keywordLiterals])
  unfold runLoop
  simp only [hr, h1, h2, h3, h4, h5, h6, Bool.false_or, Bool.or_self,
    decide_eq_true_eq, hbound, if_false]
  simp

/-- C7, amended: when the model's very first reply contains none of the
recognised tool keywords ("retrieve", "search", "analyze", "extract") and
no "final answer"/"answer:" marker, the loop stops after exactly one
model call and records the reply as the "result" step; the returned
result equals that reply provided it is nonempty (an empty first reply is
falsy in `finalAnswer || fallback`, so the fixed fallback string is
returned instead — see the counterexample). -/
theorem first_reply_no_keyword_one_turn (cfg : AgentConfig)
    (docs : List (JSString × JSString)) (query r : JSString)
    (hr : cfg.oracle (initialMessages query) = .ok r)
    (hkw : ∀ lit ∈ keywordLiterals, lcIncludes r lit = false)
    (hne : r ≠ []) :
    (processQuery cfg docs query).result = r ∧
    (processQuery cfg docs query).calls = 1 ∧
    (processQuery cfg docs query).steps.getLast?
      = some ⟨.result, r, cfg.clock 2⟩ := by
  have hE : r.isEmpty = false := by
    cases r with
    | nil => exact absurd rfl hne
    | cons a l => rfl
  have hstep : runLoop cfg docs query maxIterations maxIterations 0
      (initialMessages query)
      (addStep cfg.clock [] .thought (str "Analyzing query: \"" ++ query ++ str "\""))
      = ⟨r, addStep cfg.clock (addStep cfg.clock
          (addStep cfg.clock [] .thought (str "Analyzing query: \"" ++ query ++ str "\""))
          .thought r) .result r, 1, false⟩ :=
    runLoop_no_keyword cfg docs query maxIterations 4 0 (initialMessages query)
      (addStep cfg.clock [] .thought (str "Analyzing query: \"" ++ query ++ str "\""))
      r hr hkw (by decide)
  simp only [processQuery, hstep, hE]
  refine ⟨?_, ?_, ?_⟩
  · simp
  · simp
  · simp [addStep, List.getLast?_concat]

/-- Witness for C7's amended theorem: first reply "hello". -/
theorem first_reply_no_keyword_one_turn_witness :
    ((⟨fun _ => .ok (str "hello"), fun _ q => q, fun _ => 0⟩ : AgentConfig).oracle
        (initialMessages (str "q")) = .ok (str "hello")) ∧
    (∀ lit ∈ keywordLiterals, lcIncludes (str "hello") lit = false) ∧
    (str "hello" ≠ ([] : JSString)) ∧
    ((processQuery ⟨fun _ => .ok (str "hello"), fun _ q => q, fun _ => 0⟩
        [] (str "q")).result = str "hello" ∧
      (processQuery ⟨fun _ => .ok (str "hello"), fun _ q => q, fun _ => 0⟩
        [] (str "q")).calls = 1 ∧
      (processQuery ⟨fun _ => .ok (str "hello"), fun _ q => q, fun _ => 0⟩
        [] (str "q")).steps.getLast?
        = some ⟨.result, str "hello", (fun _ => 0 : Nat → Nat) 2⟩) :=
  ⟨rfl, by decide, by decide,
    first_reply_no_keyword_one_turn _ [] (str "q") (str "hello") rfl (by decide) (by decide)⟩

/-- C7, counterexample: the empty string is a reply with no keyword and
no marker; the loop does stop after one call and records it as the result
step, but the returned result is the fallback string, not that first
reply — `finalAnswer || fallback` treats the empty reply as falsy. -/
theorem first_reply_empty_counterexample :
    (∀ lit ∈ keywordLiterals, lcIncludes [] lit = false) ∧
    (processQuery ⟨fun _ => .ok [], fun _ q => q, fun _ => 0⟩ [] (str "q")).calls = 1 ∧
    (processQuery ⟨fun _ => .ok [], fun _ q => q, fun _ => 0⟩ [] (str "q")).result ≠ [] ∧
    (processQuery ⟨fun _ => .ok [], fun _ q => q, fun _ => 0⟩ [] (str "q")).result
      = str "Unable to generate a complete answer. Please try again." := by
  refine ⟨by decide, by decide, by decide, by decide⟩
